import Mathlib

/-!
Verification of the parser, type resolver and scope manager of a small
C-like compiler front end.  The definitions below are a shallow embedding
of src/src/parse.c; the type model and the tokenizer interface, whose
source files are not part of the repository snapshot, are modelled from
the specification where noted.
-/

set_option maxHeartbeats 1000000

/-- Member of an aggregate type: name, declared type and byte offset.
Mirrors the C structure Member (fields name, ty, offset). -/
structure MemberT (τ : Type) where
  name : String
  ty : τ
  offset : Nat
deriving Repr, DecidableEq

/-- Modelled from the spec: the Type variant of the missing type model
source (spec section 3): character and word integers, pointer, array and
aggregate types.  The aggregate carries its member list and its computed
total size, as the C structure Type does. -/
inductive Ty where
  | char : Ty
  | int : Ty
  | ptr (base : Ty) : Ty
  | array (base : Ty) (len : Nat) : Ty
  | strct (members : List (MemberT Ty)) (size : Nat) : Ty
deriving Repr

abbrev Member := MemberT Ty

/-- Modelled from the spec: size of a type (spec section 4.1): char is one
byte, int is word width, a pointer is word width, an array is element
size times length, an aggregate carries its assigned size. -/
def Ty.size : Ty → Nat
  | .char => 1
  | .int => 8
  | .ptr _ => 8
  | .array b n => b.size * n
  | .strct _ sz => sz

/-- Modelled from the spec: the base type of a pointer or array type
(spec section 4.1, the has-base predicate and the C field ty.base). -/
def Ty.base : Ty → Option Ty
  | .ptr b => some b
  | .array b _ => some b
  | _ => none

/-- Member list of an aggregate type (the C field ty.members). -/
def Ty.members : Ty → List Member
  | .strct ms _ => ms
  | _ => []

/-- Modelled from the spec: the is-integer predicate of the missing type
model source (spec section 4.1). -/
def is_integer : Ty → Bool
  | .char => true
  | .int => true
  | _ => false

/-- Modelled from the spec: pointer type constructor of the missing type
model source (spec section 4.1). -/
def pointer_to (base : Ty) : Ty := .ptr base

/-- Modelled from the spec: array type constructor of the missing type
model source (spec section 4.1). -/
def array_of (base : Ty) (len : Nat) : Ty := .array base len

/-- Modelled from the spec: the predefined char type object. -/
def char_type : Ty := .char

/-- Modelled from the spec: the predefined int type object. -/
def int_type : Ty := .int

/-- Modelled from the spec: the classified tokens produced by the
external tokenizer (spec section 6): keyword or punctuator, identifier,
number, string literal with decoded content and length, end of input. -/
inductive Token where
  | reserved (s : String) : Token
  | ident (s : String) : Token
  | num (v : Nat) : Token
  | str (contents : String) (cont_len : Nat) : Token
  | eof : Token
deriving Repr, DecidableEq

/-- The lexeme of a token (the C fields tok.str and tok.len). -/
def tok_str : Token → String
  | .reserved s => s
  | .ident s => s
  | _ => ""

/-- Variable record: name, type, storage class, and for string-literal
globals the literal content (C structure Var). -/
structure Var where
  name : String
  ty : Ty
  is_local : Bool
  contents : Option String
  cont_len : Nat
deriving Repr

/-- Parse errors: the fail-fast diagnostic carrying a message and the
offending token (the C function error_tok), plus fuel exhaustion of the
embedding, which no run of the source program corresponds to. -/
inductive PErr where
  | tok (msg : String) (t : Token) : PErr
  | fuel : PErr
deriving Repr

/-- The mutable parser state of parse.c: the remaining token stream
(global variable token), the scope chain, the per-function locals list,
the program globals list (all VarList chains, newest first) and the
string-label counter of new_label. -/
@[ext]
structure PState where
  tokens : List Token
  scope : List Var
  locals : List Var
  globals : List Var
  labelCnt : Nat
deriving Repr

/-- The token the parser currently looks at. -/
def cur_tok (st : PState) : Token := st.tokens.headD Token.eof

/-- Modelled from the spec: consume-if-equals of the tokenizer interface
(spec section 6, the C function consume): if the current token is the
given punctuator or keyword, advance past it and return it. -/
def consume (op : String) (st : PState) : Option (Token × PState) :=
  match st.tokens with
  | Token.reserved s :: rest =>
      if s = op then some (Token.reserved s, { st with tokens := rest }) else none
  | _ => none

/-- Modelled from the spec: peek-equals of the tokenizer interface (the C
function peek), which tests the current token without advancing. -/
def peek (op : String) (st : PState) : Bool :=
  match st.tokens with
  | Token.reserved s :: _ => s = op
  | _ => false

/-- Modelled from the spec: consume an identifier token if one is current
(the C function consume_ident). -/
def consume_ident (st : PState) : Option (Token × PState) :=
  match st.tokens with
  | Token.ident s :: rest => some (Token.ident s, { st with tokens := rest })
  | _ => none

/-- Modelled from the spec: expect-exact of the tokenizer interface (the
C function expect): the given punctuator or keyword must be current. -/
def expect (op : String) (st : PState) : Except PErr PState :=
  match consume op st with
  | some (_, st') => .ok st'
  | none => .error (.tok ("expected " ++ op) (cur_tok st))

/-- Modelled from the spec: expect-number of the tokenizer interface (the
C function expect_number). -/
def expect_number (st : PState) : Except PErr (Nat × PState) :=
  match st.tokens with
  | Token.num v :: rest => .ok (v, { st with tokens := rest })
  | _ => .error (.tok "expected a number" (cur_tok st))

/-- Modelled from the spec: expect-identifier of the tokenizer interface
(the C function expect_ident). -/
def expect_ident (st : PState) : Except PErr (String × PState) :=
  match st.tokens with
  | Token.ident s :: rest => .ok (s, { st with tokens := rest })
  | _ => .error (.tok "expected an ident" (cur_tok st))

/-- Modelled from the spec: end-of-input test (the C function at_eof). -/
def at_eof (st : PState) : Bool :=
  match st.tokens with
  | [] => true
  | Token.eof :: _ => true
  | _ => false

/-- Find a variable by name in the scope chain, innermost first
(parse.c find_var). -/
def find_var (tok : Token) : List Var → Option Var
  | [] => none
  | v :: vl => if v.name = tok_str tok then some v else find_var tok vl

/-- Create a variable and push it onto the scope chain
(parse.c new_var). -/
def new_var (name : String) (ty : Ty) (is_loc : Bool) (st : PState) : Var × PState :=
  let var : Var := ⟨name, ty, is_loc, none, 0⟩
  (var, { st with scope := var :: st.scope })

/-- Create a local variable: push it onto the scope chain and onto the
locals list (parse.c new_lvar). -/
def new_lvar (name : String) (ty : Ty) (st : PState) : Var × PState :=
  let (var, st') := new_var name ty true st
  (var, { st' with locals := var :: st'.locals })

/-- Create a global variable: push it onto the scope chain and onto the
globals list (parse.c new_gvar). -/
def new_gvar (name : String) (ty : Ty) (st : PState) : Var × PState :=
  let (var, st') := new_var name ty false st
  (var, { st' with globals := var :: st'.globals })

/-- Generate a fresh label for a string-literal global
(parse.c new_label). -/
def new_label (st : PState) : String × PState :=
  (".L.data." ++ toString st.labelCnt, { st with labelCnt := st.labelCnt + 1 })

/-- The node kinds of the AST (parse.c NodeKind). -/
inductive NodeKind where
  | ND_ADD | ND_PTR_ADD | ND_SUB | ND_PTR_SUB | ND_PTR_DIFF
  | ND_MUL | ND_DIV | ND_EQ | ND_NE | ND_LT | ND_LE
  | ND_ASSIGN | ND_MEMBER | ND_ADDR | ND_DEREF
  | ND_RETURN | ND_IF | ND_WHILE | ND_FOR | ND_BLOCK
  | ND_FUNCALL | ND_EXPR_STMT | ND_STMT_EXPR | ND_VAR | ND_NUM | ND_NULL
deriving Repr, DecidableEq

/-- AST node (the C structure Node).  The intrusive next chains of the C
code become the body and args lists; every other field is kept.  A field
is meaningful only for the kinds that set it, as in the source. -/
inductive Node where
  | mk (kind : NodeKind)
       (lhs rhs cond thn els ini inc : Option Node)
       (body : List Node) (funcname : String) (args : List Node)
       (val : Nat) (var : Option Var) (memb : Option Member)
       (ty : Option Ty) (tok : Token) : Node

def Node.kind : Node → NodeKind
  | ⟨k, _, _, _, _, _, _, _, _, _, _, _, _, _, _, _⟩ => k

def Node.lhs : Node → Option Node
  | ⟨_, l, _, _, _, _, _, _, _, _, _, _, _, _, _, _⟩ => l

def Node.rhs : Node → Option Node
  | ⟨_, _, r, _, _, _, _, _, _, _, _, _, _, _, _, _⟩ => r

def Node.cond : Node → Option Node
  | ⟨_, _, _, c, _, _, _, _, _, _, _, _, _, _, _, _⟩ => c

def Node.thn : Node → Option Node
  | ⟨_, _, _, _, t, _, _, _, _, _, _, _, _, _, _, _⟩ => t

def Node.els : Node → Option Node
  | ⟨_, _, _, _, _, e, _, _, _, _, _, _, _, _, _, _⟩ => e

def Node.ini : Node → Option Node
  | ⟨_, _, _, _, _, _, i, _, _, _, _, _, _, _, _, _⟩ => i

def Node.inc : Node → Option Node
  | ⟨_, _, _, _, _, _, _, i, _, _, _, _, _, _, _, _⟩ => i

def Node.body : Node → List Node
  | ⟨_, _, _, _, _, _, _, _, b, _, _, _, _, _, _, _⟩ => b

def Node.funcname : Node → String
  | ⟨_, _, _, _, _, _, _, _, _, f, _, _, _, _, _, _⟩ => f

def Node.args : Node → List Node
  | ⟨_, _, _, _, _, _, _, _, _, _, a, _, _, _, _, _⟩ => a

def Node.val : Node → Nat
  | ⟨_, _, _, _, _, _, _, _, _, _, _, v, _, _, _, _⟩ => v

def Node.var : Node → Option Var
  | ⟨_, _, _, _, _, _, _, _, _, _, _, _, v, _, _, _⟩ => v

def Node.memb : Node → Option Member
  | ⟨_, _, _, _, _, _, _, _, _, _, _, _, _, m, _, _⟩ => m

def Node.ty : Node → Option Ty
  | ⟨_, _, _, _, _, _, _, _, _, _, _, _, _, _, t, _⟩ => t

def Node.tok : Node → Token
  | ⟨_, _, _, _, _, _, _, _, _, _, _, _, _, _, _, t⟩ => t

/-- Create a bare node of a kind (parse.c new_node). -/
def new_node (kind : NodeKind) (tok : Token) : Node :=
  ⟨kind, none, none, none, none, none, none, none, [], "", [], 0, none, none, none, tok⟩

/-- Create a binary node (parse.c new_binary). -/
def new_binary (kind : NodeKind) (lhs rhs : Node) (tok : Token) : Node :=
  ⟨kind, some lhs, some rhs, none, none, none, none, none, [], "", [], 0, none, none, none, tok⟩

/-- Create a node with a single left child (parse.c new_unary). -/
def new_unary (kind : NodeKind) (e : Node) (tok : Token) : Node :=
  ⟨kind, some e, none, none, none, none, none, none, [], "", [], 0, none, none, none, tok⟩

/-- Create a numeric literal node (parse.c new_num). -/
def new_num (val : Nat) (tok : Token) : Node :=
  ⟨.ND_NUM, none, none, none, none, none, none, none, [], "", [], val, none, none, none, tok⟩

/-- Create a variable reference node (parse.c new_var_node). -/
def new_var_node (v : Var) (tok : Token) : Node :=
  ⟨.ND_VAR, none, none, none, none, none, none, none, [], "", [], 0, some v, none, none, tok⟩

/-- Build an if node: new_node plus the cond, then and else fields set,
as in stmt2 of parse.c. -/
def mk_if (cond : Node) (thn : Node) (els : Option Node) (tok : Token) : Node :=
  ⟨.ND_IF, none, none, some cond, some thn, els, none, none, [], "", [], 0, none, none, none, tok⟩

/-- Build a while node as in stmt2 of parse.c. -/
def mk_while (cond : Node) (thn : Node) (tok : Token) : Node :=
  ⟨.ND_WHILE, none, none, some cond, some thn, none, none, none, [], "", [], 0, none, none, none, tok⟩

/-- Build a for node as in stmt2 of parse.c. -/
def mk_for (ini : Option Node) (cond : Option Node) (inc : Option Node)
    (thn : Node) (tok : Token) : Node :=
  ⟨.ND_FOR, none, none, cond, some thn, none, ini, inc, [], "", [], 0, none, none, none, tok⟩

/-- Build a block node holding its statement sequence, as in stmt2. -/
def mk_block (body : List Node) (tok : Token) : Node :=
  ⟨.ND_BLOCK, none, none, none, none, none, none, none, body, "", [], 0, none, none, none, tok⟩

/-- Build a call node with its name and argument list, as in primary. -/
def mk_funcall (name : String) (args : List Node) (tok : Token) : Node :=
  ⟨.ND_FUNCALL, none, none, none, none, none, none, none, [], name, args, 0, none, none, none, tok⟩

/-- Build a member access node: new_unary ND_MEMBER plus the member
field, as in struct_ref of parse.c. -/
def mk_member (lhs : Node) (mem : Member) (tok : Token) : Node :=
  ⟨.ND_MEMBER, some lhs, none, none, none, none, none, none, [], "", [], 0, none, some mem, none, tok⟩

/-- Build a statement-expression node holding its statement sequence, as
in stmt_expr of parse.c. -/
def mk_stmt_expr (body : List Node) (tok : Token) : Node :=
  ⟨.ND_STMT_EXPR, none, none, none, none, none, none, none, body, "", [], 0, none, none, none, tok⟩

/-- The resolved type of an already annotated operand; a node without a
type in operand position is a malformed tree. -/
def opt_node_ty (o : Option Node) (tok : Token) : Except PErr Ty :=
  match o with
  | some m =>
      match m.ty with
      | some t => .ok t
      | none => .error (.tok "expression expected" tok)
  | none => .error (.tok "expression expected" tok)

mutual

/-- Modelled from the spec: the type-annotation pass add_type of the
missing type model source (spec section 4.3).  It returns unchanged a
node that already carries a type, otherwise annotates every child and
then the node itself: literal and call get the word integer type, a
variable reference its declared type, address-of the pointer to the
operand type, dereference the operand base type (an operand without a
base type is an error), the binary arithmetic, comparison and assignment
forms default to the left operand type, member access the member type;
statement forms stay untyped; a statement expression takes the type of
its last body node.  The fuel argument is an artifact of the embedding:
the recursion is bounded by the tree depth. -/
def add_type : Nat → Node → Except PErr Node
  | 0, _ => .error .fuel
  | fuel+1, n =>
    if n.ty.isSome then .ok n
    else
      match add_type_opt fuel n.lhs with
      | .error e => .error e
      | .ok lhs =>
      match add_type_opt fuel n.rhs with
      | .error e => .error e
      | .ok rhs =>
      match add_type_opt fuel n.cond with
      | .error e => .error e
      | .ok cond =>
      match add_type_opt fuel n.thn with
      | .error e => .error e
      | .ok thn =>
      match add_type_opt fuel n.els with
      | .error e => .error e
      | .ok els =>
      match add_type_opt fuel n.ini with
      | .error e => .error e
      | .ok ini =>
      match add_type_opt fuel n.inc with
      | .error e => .error e
      | .ok inc =>
      match add_type_list fuel n.body with
      | .error e => .error e
      | .ok body =>
      match add_type_list fuel n.args with
      | .error e => .error e
      | .ok args =>
      let set : Option Ty → Node := fun t =>
        ⟨n.kind, lhs, rhs, cond, thn, els, ini, inc, body, n.funcname, args,
         n.val, n.var, n.memb, t, n.tok⟩
      match n.kind with
      | .ND_NUM => .ok (set (some int_type))
      | .ND_FUNCALL => .ok (set (some int_type))
      | .ND_VAR =>
          match n.var with
          | some v => .ok (set (some v.ty))
          | none => .error (.tok "variable expected" n.tok)
      | .ND_MEMBER =>
          match n.memb with
          | some m => .ok (set (some m.ty))
          | none => .error (.tok "member expected" n.tok)
      | .ND_ADDR =>
          match opt_node_ty lhs n.tok with
          | .error e => .error e
          | .ok t => .ok (set (some (pointer_to t)))
      | .ND_DEREF =>
          match opt_node_ty lhs n.tok with
          | .error e => .error e
          | .ok t =>
              match t.base with
              | some b => .ok (set (some b))
              | none => .error (.tok "invalid pointer dereference" n.tok)
      | .ND_ADD | .ND_SUB | .ND_MUL | .ND_DIV | .ND_EQ | .ND_NE | .ND_LT | .ND_LE
      | .ND_PTR_ADD | .ND_PTR_SUB | .ND_PTR_DIFF | .ND_ASSIGN =>
          match opt_node_ty lhs n.tok with
          | .error e => .error e
          | .ok t => .ok (set (some t))
      | .ND_STMT_EXPR => .ok (set (body.getLast?.bind Node.ty))
      | .ND_RETURN | .ND_IF | .ND_WHILE | .ND_FOR | .ND_BLOCK
      | .ND_EXPR_STMT | .ND_NULL => .ok (set none)

/-- Annotate an optional child node. -/
def add_type_opt : Nat → Option Node → Except PErr (Option Node)
  | 0, _ => .error .fuel
  | _+1, none => .ok none
  | fuel+1, some n =>
      match add_type fuel n with
      | .error e => .error e
      | .ok n' => .ok (some n')

/-- Annotate every node of a child list. -/
def add_type_list : Nat → List Node → Except PErr (List Node)
  | 0, _ => .error .fuel
  | _+1, [] => .ok []
  | fuel+1, n :: ns =>
      match add_type fuel n with
      | .error e => .error e
      | .ok n' =>
          match add_type_list fuel ns with
          | .error e => .error e
          | .ok ns' => .ok (n' :: ns')

end

/-- Construction of a plus node under the pointer-arithmetic table:
annotate both operands, then integer plus integer is a plain add, a
base-typed operand plus an integer is a pointer-scaled add, an integer
plus a base-typed operand is a pointer-scaled add with the operands
swapped, anything else is an invalid-operands error (parse.c new_add). -/
def new_add (fuel : Nat) (lhs rhs : Node) (tok : Token) : Except PErr Node :=
  match add_type fuel lhs with
  | .error e => .error e
  | .ok lhs =>
  match add_type fuel rhs with
  | .error e => .error e
  | .ok rhs =>
  match lhs.ty, rhs.ty with
  | some tl, some tr =>
      if is_integer tl && is_integer tr then .ok (new_binary .ND_ADD lhs rhs tok)
      else if tl.base.isSome && is_integer tr then .ok (new_binary .ND_PTR_ADD lhs rhs tok)
      else if is_integer tl && tr.base.isSome then .ok (new_binary .ND_PTR_ADD rhs lhs tok)
      else .error (.tok "invalid operands" tok)
  | _, _ => .error (.tok "invalid operands" tok)

/-- Construction of a minus node under the pointer-arithmetic table:
annotate both operands, then integer minus integer is a plain sub, a
base-typed operand minus an integer is a pointer-scaled sub, base-typed
minus base-typed is a pointer difference, anything else is an
invalid-operands error (parse.c new_sub). -/
def new_sub (fuel : Nat) (lhs rhs : Node) (tok : Token) : Except PErr Node :=
  match add_type fuel lhs with
  | .error e => .error e
  | .ok lhs =>
  match add_type fuel rhs with
  | .error e => .error e
  | .ok rhs =>
  match lhs.ty, rhs.ty with
  | some tl, some tr =>
      if is_integer tl && is_integer tr then .ok (new_binary .ND_SUB lhs rhs tok)
      else if tl.base.isSome && is_integer tr then .ok (new_binary .ND_PTR_SUB lhs rhs tok)
      else if tl.base.isSome && tr.base.isSome then .ok (new_binary .ND_PTR_DIFF lhs rhs tok)
      else .error (.tok "invalid operands" tok)
  | _, _ => .error (.tok "invalid operands" tok)

/-- Read chained array suffixes after a declarator: if the next token is
not an opening bracket the base type is returned unchanged, otherwise the
length is read and the remaining suffixes are resolved first, so the
rightmost suffix wraps the base innermost (parse.c read_type_suffix).
The fuel argument is an artifact of the embedding; the recursion is
bounded by the token stream length. -/
def read_type_suffix : Nat → Ty → PState → Except PErr (Ty × PState)
  | 0, _, _ => .error .fuel
  | fuel+1, base, st =>
    match consume "[" st with
    | none => .ok (base, st)
    | some (_, st) =>
        match expect_number st with
        | .error er => .error er
        | .ok (sz, st) =>
            match expect "]" st with
            | .error er => .error er
            | .ok st =>
                match read_type_suffix fuel base st with
                | .error er => .error er
                | .ok (base, st) => .ok (array_of base sz, st)

/-- The offset-assignment loop of struct_decl: walk the member list with
a running total, set each member offset to the total so far and add the
member size; the second component is the final total, which becomes the
aggregate size (parse.c struct_decl, lines 207 to 213). -/
def assign_offsets : List Member → Nat → (List Member × Nat)
  | [], off => ([], off)
  | m :: ms, off =>
      let rest := assign_offsets ms (off + m.ty.size)
      ({ m with offset := off } :: rest.1, rest.2)

/-- Find a member of an aggregate type by name, first match wins
(parse.c find_member). -/
def find_member_list : List Member → String → Option Member
  | [], _ => none
  | m :: ms, name => if m.name = name then some m else find_member_list ms name

/-- Find a member of an aggregate type by name (parse.c find_member). -/
def find_member (ty : Ty) (name : String) : Option Member :=
  find_member_list ty.members name

/-- True when the current token starts a type (parse.c is_typename). -/
def is_typename (st : PState) : Bool :=
  peek "char" st || peek "int" st || peek "struct" st

/-- A parsed function: name, parameters in order, accumulated locals
(newest first) and the body statement sequence (C structure Function). -/
structure Function where
  name : String
  params : List Var
  locals : List Var
  node : List Node

/-- A parsed program: the global variable chain (newest first) and the
function list in declaration order (C structure Program). -/
structure Program where
  globals : List Var
  fns : List Function

mutual

/-- Decide whether the next top-level item is a function: remember the
token position, parse a base type, test for an identifier followed by an
opening parenthesis, then restore the saved token position
(parse.c is_function). -/
def is_function : Nat → PState → Except PErr (Bool × PState)
  | 0, _ => .error .fuel
  | fuel+1, st =>
    let saved := st.tokens
    match basetype fuel st with
    | .error er => .error er
    | .ok (_, st1) =>
        let r :=
          match consume_ident st1 with
          | none => (false, st1)
          | some (_, st2) =>
              match consume "(" st2 with
              | none => (false, st2)
              | some (_, st3) => (true, st3)
        .ok (r.1, { r.2 with tokens := saved })

/-- Parse a whole program: reset the globals chain, then alternate
function definitions and global variable declarations until end of input
(parse.c program). -/
def program : Nat → PState → Except PErr Program
  | 0, _ => .error .fuel
  | fuel+1, st =>
    let st := { st with globals := [] }
    match program_loop fuel st with
    | .error er => .error er
    | .ok (fns, st) => .ok ⟨st.globals, fns⟩

/-- The top-level loop of program: functions are appended in order,
globals accumulate in the state. -/
def program_loop : Nat → PState → Except PErr (List Function × PState)
  | 0, _ => .error .fuel
  | fuel+1, st =>
    if at_eof st then .ok ([], st)
    else
      match is_function fuel st with
      | .error er => .error er
      | .ok (true, st) =>
          match function fuel st with
          | .error er => .error er
          | .ok (fn, st) =>
              match program_loop fuel st with
              | .error er => .error er
              | .ok (fns, st) => .ok (fn :: fns, st)
      | .ok (false, st) =>
          match global_var fuel st with
          | .error er => .error er
          | .ok st => program_loop fuel st

/-- Parse a base type: char, int or a struct declaration, then zero or
more pointer stars (parse.c basetype). -/
def basetype : Nat → PState → Except PErr (Ty × PState)
  | 0, _ => .error .fuel
  | fuel+1, st =>
    if !is_typename st then .error (.tok "typename expected" (cur_tok st))
    else
      match consume "char" st with
      | some (_, st) => basetype_ptr_loop fuel char_type st
      | none =>
      match consume "int" st with
      | some (_, st) => basetype_ptr_loop fuel int_type st
      | none =>
      match struct_decl fuel st with
      | .error er => .error er
      | .ok (ty, st) => basetype_ptr_loop fuel ty st

/-- The trailing star loop of basetype: each star wraps the type in a
pointer type. -/
def basetype_ptr_loop : Nat → Ty → PState → Except PErr (Ty × PState)
  | 0, _, _ => .error .fuel
  | fuel+1, ty, st =>
    match consume "*" st with
    | some (_, st) => basetype_ptr_loop fuel (pointer_to ty) st
    | none => .ok (ty, st)

/-- Parse a struct declaration: the keyword, the braced member list, then
offsets assigned by running total and the total as the aggregate size
(parse.c struct_decl). -/
def struct_decl : Nat → PState → Except PErr (Ty × PState)
  | 0, _ => .error .fuel
  | fuel+1, st =>
    match expect "struct" st with
    | .error er => .error er
    | .ok st =>
        match expect "\x7b" st with
        | .error er => .error er
        | .ok st =>
            match struct_members fuel st with
            | .error er => .error er
            | .ok (ms, st) =>
                let r := assign_offsets ms 0
                .ok (Ty.strct r.1 r.2, st)

/-- The member loop of struct_decl: members until the closing brace. -/
def struct_members : Nat → PState → Except PErr (List Member × PState)
  | 0, _ => .error .fuel
  | fuel+1, st =>
    match consume "\x7d" st with
    | some (_, st) => .ok ([], st)
    | none =>
        match struct_member fuel st with
        | .error er => .error er
        | .ok (m, st) =>
            match struct_members fuel st with
            | .error er => .error er
            | .ok (ms, st) => .ok (m :: ms, st)

/-- Parse one struct member: base type, name, array suffixes, semicolon
(parse.c struct_member). -/
def struct_member : Nat → PState → Except PErr (Member × PState)
  | 0, _ => .error .fuel
  | fuel+1, st =>
    match basetype fuel st with
    | .error er => .error er
    | .ok (ty, st) =>
        match expect_ident st with
        | .error er => .error er
        | .ok (name, st) =>
            match read_type_suffix fuel ty st with
            | .error er => .error er
            | .ok (ty, st) =>
                match expect ";" st with
                | .error er => .error er
                | .ok st => .ok (⟨name, ty, 0⟩, st)

/-- Parse one function parameter and declare it as a local
(parse.c read_func_param). -/
def read_func_param : Nat → PState → Except PErr (Var × PState)
  | 0, _ => .error .fuel
  | fuel+1, st =>
    match basetype fuel st with
    | .error er => .error er
    | .ok (ty, st) =>
        match expect_ident st with
        | .error er => .error er
        | .ok (name, st) =>
            match read_type_suffix fuel ty st with
            | .error er => .error er
            | .ok (ty, st) => .ok (new_lvar name ty st)

/-- Parse the parameter list: empty on an immediate closing parenthesis,
otherwise parameters separated by commas (parse.c read_func_params). -/
def read_func_params : Nat → PState → Except PErr (List Var × PState)
  | 0, _ => .error .fuel
  | fuel+1, st =>
    match consume ")" st with
    | some (_, st) => .ok ([], st)
    | none =>
        match read_func_param fuel st with
        | .error er => .error er
        | .ok (v, st) =>
            match read_func_params_loop fuel st with
            | .error er => .error er
            | .ok (vs, st) => .ok (v :: vs, st)

/-- The comma loop of read_func_params. -/
def read_func_params_loop : Nat → PState → Except PErr (List Var × PState)
  | 0, _ => .error .fuel
  | fuel+1, st =>
    match consume ")" st with
    | some (_, st) => .ok ([], st)
    | none =>
        match expect "," st with
        | .error er => .error er
        | .ok st =>
            match read_func_param fuel st with
            | .error er => .error er
            | .ok (v, st) =>
                match read_func_params_loop fuel st with
                | .error er => .error er
                | .ok (vs, st) => .ok (v :: vs, st)

/-- Parse a function definition: reset the locals accumulator, read the
return base type and name, save the scope head, read the parameters and
the braced body, then restore the saved scope (parse.c function). -/
def function : Nat → PState → Except PErr (Function × PState)
  | 0, _ => .error .fuel
  | fuel+1, st =>
    let st := { st with locals := [] }
    match basetype fuel st with
    | .error er => .error er
    | .ok (_, st) =>
        match expect_ident st with
        | .error er => .error er
        | .ok (name, st) =>
            match expect "(" st with
            | .error er => .error er
            | .ok st =>
                let sc := st.scope
                match read_func_params fuel st with
                | .error er => .error er
                | .ok (params, st) =>
                    match expect "\x7b" st with
                    | .error er => .error er
                    | .ok st =>
                        match stmt_list fuel st with
                        | .error er => .error er
                        | .ok (body, st) =>
                            let st := { st with scope := sc }
                            .ok (⟨name, params, st.locals, body⟩, st)

/-- The statement loop shared by function bodies and braced blocks:
statements until the closing brace. -/
def stmt_list : Nat → PState → Except PErr (List Node × PState)
  | 0, _ => .error .fuel
  | fuel+1, st =>
    match consume "\x7d" st with
    | some (_, st) => .ok ([], st)
    | none =>
        match stmt fuel st with
        | .error er => .error er
        | .ok (n, st) =>
            match stmt_list fuel st with
            | .error er => .error er
            | .ok (ns, st) => .ok (n :: ns, st)

/-- Parse a global variable declaration: base type, name, array
suffixes, semicolon, then declare the global (parse.c global_var). -/
def global_var : Nat → PState → Except PErr PState
  | 0, _ => .error .fuel
  | fuel+1, st =>
    match basetype fuel st with
    | .error er => .error er
    | .ok (ty, st) =>
        match expect_ident st with
        | .error er => .error er
        | .ok (name, st) =>
            match read_type_suffix fuel ty st with
            | .error er => .error er
            | .ok (ty, st) =>
                match expect ";" st with
                | .error er => .error er
                | .ok st => .ok (new_gvar name ty st).2

/-- Parse a local declaration: base type, name, array suffixes, declare
the local; a bare semicolon yields a null statement, otherwise an
initializer assignment wrapped in an expression statement
(parse.c declaration). -/
def declaration : Nat → PState → Except PErr (Node × PState)
  | 0, _ => .error .fuel
  | fuel+1, st =>
    let tok := cur_tok st
    match basetype fuel st with
    | .error er => .error er
    | .ok (ty, st) =>
        match expect_ident st with
        | .error er => .error er
        | .ok (name, st) =>
            match read_type_suffix fuel ty st with
            | .error er => .error er
            | .ok (ty, st) =>
                let r := new_lvar name ty st
                match consume ";" r.2 with
                | some (_, st) => .ok (new_node .ND_NULL tok, st)
                | none =>
                    match expect "=" r.2 with
                    | .error er => .error er
                    | .ok st =>
                        let lhs := new_var_node r.1 tok
                        match expr fuel st with
                        | .error er => .error er
                        | .ok (rhs, st) =>
                            match expect ";" st with
                            | .error er => .error er
                            | .ok st =>
                                .ok (new_unary .ND_EXPR_STMT
                                       (new_binary .ND_ASSIGN lhs rhs tok) tok, st)

/-- Parse an expression and wrap it in an expression statement
(parse.c read_expr_stmt). -/
def read_expr_stmt : Nat → PState → Except PErr (Node × PState)
  | 0, _ => .error .fuel
  | fuel+1, st =>
    let tok := cur_tok st
    match expr fuel st with
    | .error er => .error er
    | .ok (e, st) => .ok (new_unary .ND_EXPR_STMT e tok, st)

/-- Parse a statement and run the type-annotation pass on it
(parse.c stmt). -/
def stmt : Nat → PState → Except PErr (Node × PState)
  | 0, _ => .error .fuel
  | fuel+1, st =>
    match stmt2 fuel st with
    | .error er => .error er
    | .ok (n, st) =>
        match add_type fuel n with
        | .error er => .error er
        | .ok n => .ok (n, st)

/-- Parse one statement form: return, if, while, for, braced block with
scope save and restore, local declaration, or expression statement
(parse.c stmt2). -/
def stmt2 : Nat → PState → Except PErr (Node × PState)
  | 0, _ => .error .fuel
  | fuel+1, st =>
    match consume "return" st with
    | some (tok, st) =>
        (match expr fuel st with
         | .error er => .error er
         | .ok (e, st) =>
             match expect ";" st with
             | .error er => .error er
             | .ok st => .ok (new_unary .ND_RETURN e tok, st))
    | none =>
    match consume "if" st with
    | some (tok, st) =>
        (match expect "(" st with
         | .error er => .error er
         | .ok st =>
             match expr fuel st with
             | .error er => .error er
             | .ok (c, st) =>
                 match expect ")" st with
                 | .error er => .error er
                 | .ok st =>
                     match stmt fuel st with
                     | .error er => .error er
                     | .ok (t, st) =>
                         match consume "else" st with
                         | some (_, st) =>
                             (match stmt fuel st with
                              | .error er => .error er
                              | .ok (e, st) => .ok (mk_if c t (some e) tok, st))
                         | none => .ok (mk_if c t none tok, st))
    | none =>
    match consume "while" st with
    | some (tok, st) =>
        (match expect "(" st with
         | .error er => .error er
         | .ok st =>
             match expr fuel st with
             | .error er => .error er
             | .ok (c, st) =>
                 match expect ")" st with
                 | .error er => .error er
                 | .ok st =>
                     match stmt fuel st with
                     | .error er => .error er
                     | .ok (t, st) => .ok (mk_while c t tok, st))
    | none =>
    match consume "for" st with
    | some (tok, st) =>
        (match expect "(" st with
         | .error er => .error er
         | .ok st =>
             match stmt2_for_init fuel st with
             | .error er => .error er
             | .ok (ini, st) =>
                 match stmt2_for_cond fuel st with
                 | .error er => .error er
                 | .ok (c, st) =>
                     match stmt2_for_inc fuel st with
                     | .error er => .error er
                     | .ok (inc, st) =>
                         match stmt fuel st with
                         | .error er => .error er
                         | .ok (t, st) => .ok (mk_for ini c inc t tok, st))
    | none =>
    let sc := st.scope
    match consume "\x7b" st with
    | some (tok, st) =>
        (match stmt_list fuel st with
         | .error er => .error er
         | .ok (body, st) =>
             let st := { st with scope := sc }
             .ok (mk_block body tok, st))
    | none =>
    if is_typename st then declaration fuel st
    else
      match read_expr_stmt fuel st with
      | .error er => .error er
      | .ok (n, st) =>
          match expect ";" st with
          | .error er => .error er
          | .ok st => .ok (n, st)

/-- The optional for initializer: absent when a semicolon is next,
otherwise an expression statement followed by the semicolon. -/
def stmt2_for_init : Nat → PState → Except PErr (Option Node × PState)
  | 0, _ => .error .fuel
  | fuel+1, st =>
    match consume ";" st with
    | some (_, st) => .ok (none, st)
    | none =>
        match read_expr_stmt fuel st with
        | .error er => .error er
        | .ok (n, st) =>
            match expect ";" st with
            | .error er => .error er
            | .ok st => .ok (some n, st)

/-- The optional for condition: absent when a semicolon is next,
otherwise an expression followed by the semicolon. -/
def stmt2_for_cond : Nat → PState → Except PErr (Option Node × PState)
  | 0, _ => .error .fuel
  | fuel+1, st =>
    match consume ";" st with
    | some (_, st) => .ok (none, st)
    | none =>
        match expr fuel st with
        | .error er => .error er
        | .ok (n, st) =>
            match expect ";" st with
            | .error er => .error er
            | .ok st => .ok (some n, st)

/-- The optional for increment: absent when a closing parenthesis is
next, otherwise an expression statement followed by the parenthesis. -/
def stmt2_for_inc : Nat → PState → Except PErr (Option Node × PState)
  | 0, _ => .error .fuel
  | fuel+1, st =>
    match consume ")" st with
    | some (_, st) => .ok (none, st)
    | none =>
        match read_expr_stmt fuel st with
        | .error er => .error er
        | .ok (n, st) =>
            match expect ")" st with
            | .error er => .error er
            | .ok st => .ok (some n, st)

/-- Parse an expression (parse.c expr). -/
def expr : Nat → PState → Except PErr (Node × PState)
  | 0, _ => .error .fuel
  | fuel+1, st => assign fuel st

/-- Parse an assignment: an equality, optionally followed by an equals
sign and a right-associative assignment (parse.c assign; the C source
passes an uninitialized token to new_binary here, the embedding uses the
equals token). -/
def assign : Nat → PState → Except PErr (Node × PState)
  | 0, _ => .error .fuel
  | fuel+1, st =>
    match equality fuel st with
    | .error er => .error er
    | .ok (n, st) =>
        match consume "=" st with
        | some (tok, st) =>
            (match assign fuel st with
             | .error er => .error er
             | .ok (r, st) => .ok (new_binary .ND_ASSIGN n r tok, st))
        | none => .ok (n, st)

/-- Parse an equality chain (parse.c equality). -/
def equality : Nat → PState → Except PErr (Node × PState)
  | 0, _ => .error .fuel
  | fuel+1, st =>
    match relational fuel st with
    | .error er => .error er
    | .ok (n, st) => equality_loop fuel n st

/-- The operator loop of equality. -/
def equality_loop : Nat → Node → PState → Except PErr (Node × PState)
  | 0, _, _ => .error .fuel
  | fuel+1, n, st =>
    match consume "==" st with
    | some (tok, st) =>
        (match relational fuel st with
         | .error er => .error er
         | .ok (r, st) => equality_loop fuel (new_binary .ND_EQ n r tok) st)
    | none =>
    match consume "!=" st with
    | some (tok, st) =>
        (match relational fuel st with
         | .error er => .error er
         | .ok (r, st) => equality_loop fuel (new_binary .ND_NE n r tok) st)
    | none => .ok (n, st)

/-- Parse a relational chain (parse.c relational). -/
def relational : Nat → PState → Except PErr (Node × PState)
  | 0, _ => .error .fuel
  | fuel+1, st =>
    match add fuel st with
    | .error er => .error er
    | .ok (n, st) => relational_loop fuel n st

/-- The operator loop of relational; greater-than forms swap the
operands into a less-than node. -/
def relational_loop : Nat → Node → PState → Except PErr (Node × PState)
  | 0, _, _ => .error .fuel
  | fuel+1, n, st =>
    match consume "<" st with
    | some (tok, st) =>
        (match add fuel st with
         | .error er => .error er
         | .ok (r, st) => relational_loop fuel (new_binary .ND_LT n r tok) st)
    | none =>
    match consume "<=" st with
    | some (tok, st) =>
        (match add fuel st with
         | .error er => .error er
         | .ok (r, st) => relational_loop fuel (new_binary .ND_LE n r tok) st)
    | none =>
    match consume ">" st with
    | some (tok, st) =>
        (match add fuel st with
         | .error er => .error er
         | .ok (r, st) => relational_loop fuel (new_binary .ND_LT r n tok) st)
    | none =>
    match consume ">=" st with
    | some (tok, st) =>
        (match add fuel st with
         | .error er => .error er
         | .ok (r, st) => relational_loop fuel (new_binary .ND_LE r n tok) st)
    | none => .ok (n, st)

/-- Parse an additive chain dispatching through the pointer-arithmetic
rules (parse.c add). -/
def add : Nat → PState → Except PErr (Node × PState)
  | 0, _ => .error .fuel
  | fuel+1, st =>
    match mul fuel st with
    | .error er => .error er
    | .ok (n, st) => add_loop fuel n st

/-- The operator loop of add: plus goes through new_add, minus through
new_sub. -/
def add_loop : Nat → Node → PState → Except PErr (Node × PState)
  | 0, _, _ => .error .fuel
  | fuel+1, n, st =>
    match consume "+" st with
    | some (tok, st) =>
        (match mul fuel st with
         | .error er => .error er
         | .ok (r, st) =>
             match new_add fuel n r tok with
             | .error er => .error er
             | .ok n => add_loop fuel n st)
    | none =>
    match consume "-" st with
    | some (tok, st) =>
        (match mul fuel st with
         | .error er => .error er
         | .ok (r, st) =>
             match new_sub fuel n r tok with
             | .error er => .error er
             | .ok n => add_loop fuel n st)
    | none => .ok (n, st)

/-- Parse a multiplicative chain (parse.c mul). -/
def mul : Nat → PState → Except PErr (Node × PState)
  | 0, _ => .error .fuel
  | fuel+1, st =>
    match unary fuel st with
    | .error er => .error er
    | .ok (n, st) => mul_loop fuel n st

/-- The operator loop of mul. -/
def mul_loop : Nat → Node → PState → Except PErr (Node × PState)
  | 0, _, _ => .error .fuel
  | fuel+1, n, st =>
    match consume "*" st with
    | some (tok, st) =>
        (match unary fuel st with
         | .error er => .error er
         | .ok (r, st) => mul_loop fuel (new_binary .ND_MUL n r tok) st)
    | none =>
    match consume "/" st with
    | some (tok, st) =>
        (match unary fuel st with
         | .error er => .error er
         | .ok (r, st) => mul_loop fuel (new_binary .ND_DIV n r tok) st)
    | none => .ok (n, st)

/-- Parse a unary expression: plus is dropped, minus becomes zero minus
the operand, ampersand takes the address, star dereferences
(parse.c unary). -/
def unary : Nat → PState → Except PErr (Node × PState)
  | 0, _ => .error .fuel
  | fuel+1, st =>
    match consume "+" st with
    | some (_, st) => unary fuel st
    | none =>
    match consume "-" st with
    | some (tok, st) =>
        (match unary fuel st with
         | .error er => .error er
         | .ok (e, st) => .ok (new_binary .ND_SUB (new_num 0 tok) e tok, st))
    | none =>
    match consume "&" st with
    | some (tok, st) =>
        (match unary fuel st with
         | .error er => .error er
         | .ok (e, st) => .ok (new_unary .ND_ADDR e tok, st))
    | none =>
    match consume "*" st with
    | some (tok, st) =>
        (match unary fuel st with
         | .error er => .error er
         | .ok (e, st) => .ok (new_unary .ND_DEREF e tok, st))
    | none => postfix_e fuel st

/-- Member access: annotate the left operand, require an aggregate type,
then look the member name up (parse.c struct_ref). -/
def struct_ref : Nat → Node → PState → Except PErr (Node × PState)
  | 0, _, _ => .error .fuel
  | fuel+1, lhs, st =>
    match add_type fuel lhs with
    | .error er => .error er
    | .ok lhs =>
        match lhs.ty with
        | some (Ty.strct ms sz) =>
            let tok := cur_tok st
            (match expect_ident st with
             | .error er => .error er
             | .ok (name, st) =>
                 match find_member (Ty.strct ms sz) name with
                 | none => .error (.tok "no such member" tok)
                 | some mem => .ok (mk_member lhs mem tok, st))
        | _ => .error (.tok "not a struct" lhs.tok)

/-- Parse a postfix chain: array subscripts desugar to dereference of a
pointer-arithmetic sum, dots are member accesses (parse.c postfix). -/
def postfix_e : Nat → PState → Except PErr (Node × PState)
  | 0, _ => .error .fuel
  | fuel+1, st =>
    match primary fuel st with
    | .error er => .error er
    | .ok (n, st) => postfix_loop fuel n st

/-- The operator loop of postfix. -/
def postfix_loop : Nat → Node → PState → Except PErr (Node × PState)
  | 0, _, _ => .error .fuel
  | fuel+1, n, st =>
    match consume "[" st with
    | some (tok, st) =>
        (match expr fuel st with
         | .error er => .error er
         | .ok (idx, st) =>
             match new_add fuel n idx tok with
             | .error er => .error er
             | .ok ex =>
                 match expect "]" st with
                 | .error er => .error er
                 | .ok st => postfix_loop fuel (new_unary .ND_DEREF ex tok) st)
    | none =>
    match consume "." st with
    | some (_, st) =>
        (match struct_ref fuel n st with
         | .error er => .error er
         | .ok (n, st) => postfix_loop fuel n st)
    | none => .ok (n, st)

/-- Parse a statement expression after the opening parenthesis and
brace: statements until the closing brace, then the closing parenthesis;
the final statement must be an expression statement and its inner
expression is copied over it, so the last body node is the value
producing expression (parse.c stmt_expr). -/
def stmt_expr : Nat → Token → PState → Except PErr (Node × PState)
  | 0, _, _ => .error .fuel
  | fuel+1, tok, st =>
    match stmt fuel st with
    | .error er => .error er
    | .ok (first, st) =>
        match stmt_expr_loop fuel st with
        | .error er => .error er
        | .ok (rest, st) =>
            match expect ")" st with
            | .error er => .error er
            | .ok st =>
                let stmts := first :: rest
                let cur := stmts.getLast (by simp)
                match cur.kind, cur.lhs with
                | .ND_EXPR_STMT, some l =>
                    .ok (mk_stmt_expr (stmts.dropLast ++ [l]) tok, st)
                | _, _ =>
                    .error (.tok "stmt expr returning void is not supported" cur.tok)

/-- The statement loop of stmt_expr: further statements until the
closing brace. -/
def stmt_expr_loop : Nat → PState → Except PErr (List Node × PState)
  | 0, _ => .error .fuel
  | fuel+1, st =>
    match consume "\x7d" st with
    | some (_, st) => .ok ([], st)
    | none =>
        match stmt fuel st with
        | .error er => .error er
        | .ok (n, st) =>
            match stmt_expr_loop fuel st with
            | .error er => .error er
            | .ok (ns, st) => .ok (n :: ns, st)

/-- Parse a call argument list after the opening parenthesis
(parse.c func_args). -/
def func_args : Nat → PState → Except PErr (List Node × PState)
  | 0, _ => .error .fuel
  | fuel+1, st =>
    match consume ")" st with
    | some (_, st) => .ok ([], st)
    | none =>
        match assign fuel st with
        | .error er => .error er
        | .ok (a, st) =>
            match func_args_loop fuel st with
            | .error er => .error er
            | .ok (rest, st) =>
                match expect ")" st with
                | .error er => .error er
                | .ok st => .ok (a :: rest, st)

/-- The comma loop of func_args. -/
def func_args_loop : Nat → PState → Except PErr (List Node × PState)
  | 0, _ => .error .fuel
  | fuel+1, st =>
    match consume "," st with
    | some (_, st) =>
        (match assign fuel st with
         | .error er => .error er
         | .ok (a, st) =>
             match func_args_loop fuel st with
             | .error er => .error er
             | .ok (rest, st) => .ok (a :: rest, st))
    | none => .ok ([], st)

/-- Parse a primary expression: a parenthesized expression or statement
expression, a sizeof expression folded to the operand type size, an
identifier as a call or a variable reference, a string literal
materialized as an anonymous global, or a number (parse.c primary; the C
source passes an uninitialized token to stmt_expr, the embedding uses
the opening parenthesis token). -/
def primary : Nat → PState → Except PErr (Node × PState)
  | 0, _ => .error .fuel
  | fuel+1, st =>
    match consume "(" st with
    | some (ptok, st) =>
        (match consume "\x7b" st with
         | some (_, st) => stmt_expr fuel ptok st
         | none =>
             match expr fuel st with
             | .error er => .error er
             | .ok (n, st) =>
                 match expect ")" st with
                 | .error er => .error er
                 | .ok st => .ok (n, st))
    | none =>
    match consume "sizeof" st with
    | some (tok, st) =>
        (match unary fuel st with
         | .error er => .error er
         | .ok (n, st) =>
             match add_type fuel n with
             | .error er => .error er
             | .ok n =>
                 match n.ty with
                 | some t => .ok (new_num t.size tok, st)
                 | none => .error (.tok "expression expected" tok))
    | none =>
    match consume_ident st with
    | some (tok, st) =>
        (match consume "(" st with
         | some (_, st) =>
             (match func_args fuel st with
              | .error er => .error er
              | .ok (args, st) => .ok (mk_funcall (tok_str tok) args tok, st))
         | none =>
             match find_var tok st.scope with
             | none => .error (.tok "undefined variable" tok)
             | some v => .ok (new_var_node v tok, st))
    | none =>
    match st.tokens with
    | Token.str contents clen :: rest =>
        let st1 : PState := { st with tokens := rest }
        let ty := array_of char_type clen
        let lr := new_label st1
        let r := new_gvar lr.1 ty lr.2
        let v : Var := { r.1 with contents := some contents, cont_len := clen }
        let st2 : PState :=
          { r.2 with scope := v :: st1.scope, globals := v :: st1.globals }
        .ok (new_var_node v (Token.str contents clen), st2)
    | Token.num v :: rest =>
        .ok (new_num v (Token.num v), { st with tokens := rest })
    | _ => .error (.tok "expected expression" (cur_tok st))

end

/-- The token form of a chain of array suffixes, one bracketed length
per entry. -/
def suffix_tokens : List Nat → List Token
  | [] => []
  | n :: l => Token.reserved "[" :: Token.num n :: Token.reserved "]" :: suffix_tokens l

/-- The nesting the right-to-left rule produces: the suffixes to the
right wrap the base before the suffixes to the left do. -/
def nest_arrays (base : Ty) : List Nat → Ty
  | [] => base
  | n :: l => array_of (nest_arrays base l) n

/-- Two parser states that agree on everything except the token
position: same scope chain, locals, globals and label counter. -/
def same_env (st st' : PState) : Prop :=
  st'.scope = st.scope ∧ st'.locals = st.locals ∧
  st'.globals = st.globals ∧ st'.labelCnt = st.labelCnt

lemma same_env_refl (st : PState) : same_env st st := ⟨rfl, rfl, rfl, rfl⟩

lemma same_env_trans {a b c : PState} (h1 : same_env a b) (h2 : same_env b c) :
    same_env a c := by
  obtain ⟨x1, x2, x3, x4⟩ := h1
  obtain ⟨y1, y2, y3, y4⟩ := h2
  exact ⟨y1.trans x1, y2.trans x2, y3.trans x3, y4.trans x4⟩

lemma consume_same_env {op : String} {st : PState} {t : Token} {st' : PState}
    (h : consume op st = some (t, st')) : same_env st st' := by
  unfold consume at h
  split at h
  · split at h
    · injection h with h'
      cases h'
      exact ⟨rfl, rfl, rfl, rfl⟩
    · exact absurd h (by simp)
  · exact absurd h (by simp)

lemma consume_ident_same_env {st : PState} {t : Token} {st' : PState}
    (h : consume_ident st = some (t, st')) : same_env st st' := by
  unfold consume_ident at h
  split at h
  · injection h with h'
    cases h'
    exact ⟨rfl, rfl, rfl, rfl⟩
  · exact absurd h (by simp)

lemma expect_same_env {op : String} {st st' : PState}
    (h : expect op st = .ok st') : same_env st st' := by
  unfold expect at h
  cases hc : consume op st with
  | none => rw [hc] at h; exact absurd h (by simp)
  | some r =>
      rw [hc] at h
      injection h with h'
      cases h'
      exact consume_same_env hc

lemma expect_number_same_env {st : PState} {v : Nat} {st' : PState}
    (h : expect_number st = .ok (v, st')) : same_env st st' := by
  unfold expect_number at h
  split at h
  · injection h with h'
    cases h'
    exact ⟨rfl, rfl, rfl, rfl⟩
  · exact absurd h (by simp)

lemma expect_ident_same_env {st : PState} {s : String} {st' : PState}
    (h : expect_ident st = .ok (s, st')) : same_env st st' := by
  unfold expect_ident at h
  split at h
  · injection h with h'
    cases h'
    exact ⟨rfl, rfl, rfl, rfl⟩
  · exact absurd h (by simp)

lemma read_type_suffix_same_env :
    ∀ (fuel : Nat) {base : Ty} {st : PState} {r : Ty × PState},
      read_type_suffix fuel base st = .ok r → same_env st r.2 := by
  intro fuel
  induction fuel with
  | zero => intro base st r h; exact absurd h (by simp [read_type_suffix])
  | succ fuel ih =>
      intro base st r h
      rw [read_type_suffix] at h
      split at h
      · injection h with h'
        rw [← h']
        exact same_env_refl st
      · rename_i t1 st1 heq
        split at h
        · exact absurd h (by simp)
        · rename_i q hn
          split at h
          · exact absurd h (by simp)
          · rename_i st3 hb
            split at h
            · exact absurd h (by simp)
            · rename_i b2 st4 hr
              injection h with h'
              rw [← h']
              exact same_env_trans
                (same_env_trans
                  (same_env_trans (consume_same_env heq) (expect_number_same_env hn))
                  (expect_same_env hb))
                (@ih base st3 (b2, st4) hr)

lemma consume_none_of_head {op : String} {st : PState}
    (h : st.tokens.head? ≠ some (Token.reserved op)) : consume op st = none := by
  unfold consume
  cases ht : st.tokens with
  | nil => rfl
  | cons t rest =>
      cases t with
      | reserved s =>
          rw [ht] at h
          simp only [List.head?] at h
          by_cases hs : s = op
          · exact absurd (by rw [hs]) h
          · simp [hs]
      | ident s => rfl
      | num v => rfl
      | str c l => rfl
      | eof => rfl

/-- C2: chained array suffixes are resolved right-to-left recursively:
reading the suffix chain of lengths l on a base type consumes exactly
the suffix tokens and wraps the base so that the rightmost suffix is
applied first (innermost), giving nest_arrays base l; in particular the
suffix chain 2, 3 on int yields array of 2 of array of 3 of int. -/
theorem read_type_suffix_right_to_left (l : List Nat) :
    ∀ (fuel : Nat) (base : Ty) (st : PState) (rest : List Token),
      st.tokens = suffix_tokens l ++ rest →
      rest.head? ≠ some (Token.reserved "[") →
      l.length < fuel →
      read_type_suffix fuel base st = .ok (nest_arrays base l, { st with tokens := rest }) := by
  induction l with
  | nil =>
      intro fuel base st rest htok hhead hfuel
      cases fuel with
      | zero => omega
      | succ fuel =>
          rw [read_type_suffix]
          have hc : consume "[" st = none := by
            apply consume_none_of_head
            rw [htok]
            simpa [suffix_tokens] using hhead
          rw [hc]
          have : ({ st with tokens := rest } : PState) = st := by
            ext <;> simp [htok, suffix_tokens]
          rw [this]
          rfl
  | cons n l ih =>
      intro fuel base st rest htok hhead hfuel
      cases fuel with
      | zero => omega
      | succ fuel =>
          rw [read_type_suffix]
          have hc : consume "[" st =
              some (Token.reserved "[",
                    { st with tokens := Token.num n :: Token.reserved "]" :: suffix_tokens l ++ rest }) := by
            simp [consume, htok, suffix_tokens]
          have hn : expect_number
              ({ st with tokens := Token.num n :: Token.reserved "]" :: suffix_tokens l ++ rest } : PState) =
              .ok (n, { st with tokens := Token.reserved "]" :: suffix_tokens l ++ rest }) := by
            simp [expect_number]
          have hb : expect "]"
              ({ st with tokens := Token.reserved "]" :: suffix_tokens l ++ rest } : PState) =
              .ok ({ st with tokens := suffix_tokens l ++ rest }) := by
            simp [expect, consume]
          have hr := ih fuel base ({ st with tokens := suffix_tokens l ++ rest } : PState) rest
            (by simp) hhead (by simpa using Nat.lt_of_succ_lt_succ hfuel)
          simp only at hr
          simp only [hc, hn, hb, hr, nest_arrays]

/-- Witness for C2 at the concrete suffix chain 2, 3 on base type int:
the result is array of length 2 whose element is array of length 3 of
int, not the reverse nesting. -/
theorem read_type_suffix_right_to_left_witness :
    read_type_suffix 3 Ty.int
        ⟨[Token.reserved "[", Token.num 2, Token.reserved "]",
          Token.reserved "[", Token.num 3, Token.reserved "]"], [], [], [], 0⟩ =
      .ok (Ty.array (Ty.array Ty.int 3) 2, ⟨[], [], [], [], 0⟩) := by
  have h := read_type_suffix_right_to_left [2, 3] 3 Ty.int
    ⟨[Token.reserved "[", Token.num 2, Token.reserved "]",
      Token.reserved "[", Token.num 3, Token.reserved "]"], [], [], [], 0⟩ []
    (by simp [suffix_tokens]) (by simp) (by decide)
  simpa [nest_arrays, array_of] using h

lemma assign_offsets_length (ms : List Member) (off : Nat) :
    (assign_offsets ms off).1.length = ms.length := by
  induction ms generalizing off with
  | nil => rfl
  | cons m ms ih => simp [assign_offsets, ih]

lemma assign_offsets_get_zero (ms : List Member) (o : Nat)
    (h : 0 < (assign_offsets ms o).1.length) :
    ((assign_offsets ms o).1[0]).offset = o := by
  cases ms with
  | nil => simp [assign_offsets] at h
  | cons m ms => rfl

lemma assign_offsets_step (ms : List Member) (off : Nat) :
    ∀ i (hi : i + 1 < (assign_offsets ms off).1.length),
      ((assign_offsets ms off).1[i+1]).offset
        = ((assign_offsets ms off).1[i]).offset
          + ((assign_offsets ms off).1[i]).ty.size := by
  induction ms generalizing off with
  | nil => intro i hi; simp [assign_offsets] at hi
  | cons m ms ih =>
      intro i hi
      simp only [assign_offsets] at hi ⊢
      cases i with
      | zero =>
          rw [List.getElem_cons_succ, List.getElem_cons_zero]
          exact assign_offsets_get_zero ms (off + m.ty.size) (by simpa using hi)
      | succ i =>
          rw [List.getElem_cons_succ, List.getElem_cons_succ]
          exact ih (off + m.ty.size) i (by simpa using hi)

lemma assign_offsets_head (ms : List Member) (o : Nat)
    (h : (assign_offsets ms o).1 ≠ []) :
    (((assign_offsets ms o).1).head h).offset = o := by
  cases ms with
  | nil => simp [assign_offsets] at h
  | cons m ms => rfl

lemma assign_offsets_total (ms : List Member) (off : Nat)
    (h2 : (assign_offsets ms off).1 ≠ []) :
    (assign_offsets ms off).2
      = (((assign_offsets ms off).1).getLast h2).offset
        + (((assign_offsets ms off).1).getLast h2).ty.size := by
  induction ms generalizing off with
  | nil => simp [assign_offsets] at h2
  | cons m ms ih =>
      cases ms with
      | nil =>
          simp [assign_offsets]
      | cons m2 ms2 =>
          have hT : (assign_offsets (m2 :: ms2) (off + m.ty.size)).1 ≠ [] := by
            have := assign_offsets_length (m2 :: ms2) (off + m.ty.size)
            intro hc
            rw [hc] at this
            simp at this
          have hlast :
              (((assign_offsets (m :: m2 :: ms2) off).1).getLast h2)
                = ((assign_offsets (m2 :: ms2) (off + m.ty.size)).1).getLast hT := by
            simp only [assign_offsets]
            exact List.getLast_cons hT
          rw [hlast]
          simpa only [assign_offsets] using ih (off + m.ty.size) hT

/-- C3: an aggregate type built by struct_decl lays its members out with
no padding in declaration order: the offset of each member after the
first equals the previous offset plus the previous member size, the
first offset is zero, and the aggregate size is the last offset plus the
last member size. -/
theorem struct_decl_layout (fuel : Nat) (st : PState) (ty : Ty) (st' : PState)
    (h : struct_decl fuel st = .ok (ty, st')) :
    (∀ i (hi : i + 1 < ty.members.length),
        (ty.members[i+1]).offset
          = (ty.members[i]).offset + (ty.members[i]).ty.size) ∧
    ∀ (hne : ty.members ≠ []),
      (ty.members.head hne).offset = 0 ∧
      ty.size = (ty.members.getLast hne).offset + (ty.members.getLast hne).ty.size := by
  cases fuel with
  | zero => exact absurd h (by simp [struct_decl])
  | succ fuel =>
      rw [struct_decl] at h
      split at h
      · exact absurd h (by simp)
      · rename_i st1 h1
        split at h
        · exact absurd h (by simp)
        · rename_i st2 h2
          split at h
          · exact absurd h (by simp)
          · injection h with h'
            rw [Prod.mk.injEq] at h'
            obtain ⟨hty, hst⟩ := h'
            subst hty
            refine ⟨fun i hi => ?_, fun hne => ⟨?_, ?_⟩⟩
            · exact assign_offsets_step _ 0 i hi
            · exact assign_offsets_head _ 0 hne
            · exact assign_offsets_total _ 0 hne

/-- Witness for C3 at the concrete aggregate with members int a and
char b: offsets 0 and 8, total size 9. -/
theorem struct_decl_layout_witness :
    (([⟨"a", Ty.int, 0⟩, ⟨"b", Ty.char, 8⟩] : List Member)[1]).offset
      = (([⟨"a", Ty.int, 0⟩, ⟨"b", Ty.char, 8⟩] : List Member)[0]).offset
        + (([⟨"a", Ty.int, 0⟩, ⟨"b", Ty.char, 8⟩] : List Member)[0]).ty.size ∧
    (([⟨"a", Ty.int, 0⟩, ⟨"b", Ty.char, 8⟩] : List Member).head (by simp)).offset = 0 ∧
    (9 : Nat) = (([⟨"a", Ty.int, 0⟩, ⟨"b", Ty.char, 8⟩] : List Member).getLast (by simp)).offset
        + (([⟨"a", Ty.int, 0⟩, ⟨"b", Ty.char, 8⟩] : List Member).getLast (by simp)).ty.size := by
  have h := struct_decl_layout 10
    ⟨[Token.reserved "struct", Token.reserved "\x7b", Token.reserved "int", Token.ident "a",
      Token.reserved ";", Token.reserved "char", Token.ident "b", Token.reserved ";",
      Token.reserved "\x7d"], [], [], [], 0⟩
    (Ty.strct [⟨"a", Ty.int, 0⟩, ⟨"b", Ty.char, 8⟩] 9)
    ⟨[], [], [], [], 0⟩ rfl
  exact ⟨h.1 0 (by simp [Ty.members]), (h.2 (by simp [Ty.members])).1,
         (h.2 (by simp [Ty.members])).2⟩

/-- C4: shadowing round trip on the scope chain: when a name resolves to
an outer variable, declaring the same name again (with any type) makes
it resolve to the freshly declared inner variable, and any state whose
scope head is restored to the saved chain resolves the name to the
original outer variable again, unchanged. -/
theorem shadowing_round_trip (st : PState) (tok : Token) (outer : Var) (ty : Ty)
    (h : find_var tok st.scope = some outer) :
    find_var tok (new_lvar (tok_str tok) ty st).2.scope
      = some (new_lvar (tok_str tok) ty st).1 ∧
    (new_lvar (tok_str tok) ty st).1.ty = ty ∧
    ∀ st2 : PState, find_var tok ({ st2 with scope := st.scope } : PState).scope = some outer := by
  refine ⟨?_, rfl, fun st2 => h⟩
  simp [new_lvar, new_var, find_var]

/-- Witness for C4: the name x bound to a char variable in the outer
scope, redeclared with type int; the inner lookup finds the new int
variable and the restored lookup finds the char variable again. -/
theorem shadowing_round_trip_witness :
    find_var (Token.ident "x")
        (new_lvar (tok_str (Token.ident "x")) Ty.int
          ⟨[], [⟨"x", Ty.char, true, none, 0⟩], [], [], 0⟩).2.scope
      = some (new_lvar (tok_str (Token.ident "x")) Ty.int
          ⟨[], [⟨"x", Ty.char, true, none, 0⟩], [], [], 0⟩).1 ∧
    (new_lvar (tok_str (Token.ident "x")) Ty.int
        ⟨[], [⟨"x", Ty.char, true, none, 0⟩], [], [], 0⟩).1.ty = Ty.int ∧
    ∀ st2 : PState,
      find_var (Token.ident "x")
          ({ st2 with scope := [⟨"x", Ty.char, true, none, 0⟩] } : PState).scope
        = some ⟨"x", Ty.char, true, none, 0⟩ :=
  shadowing_round_trip ⟨[], [⟨"x", Ty.char, true, none, 0⟩], [], [], 0⟩
    (Token.ident "x") ⟨"x", Ty.char, true, none, 0⟩ Ty.int (by simp [find_var, tok_str])

lemma base_none_of_is_integer {t : Ty} (h : is_integer t = true) : t.base = none := by
  cases t <;> simp [is_integer, Ty.base] at *

lemma not_integer_of_base_isSome {t : Ty} (h : t.base.isSome = true) :
    is_integer t = false := by
  cases t <;> simp [is_integer, Ty.base] at *

/-- C1: the pointer-arithmetic tie-break table of new_add and new_sub:
once both operands are type-annotated, integer and integer give a plain
add and sub; a base-typed (pointer or array) left operand with an
integer right gives a pointer-scaled add and sub; integer plus
base-typed gives a pointer-scaled add with the operands swapped so the
base-typed one leads, while integer minus base-typed is an
invalid-operands error; base-typed and base-typed give an
invalid-operands error for plus and a pointer-difference node for
minus: the error cells never degrade to a plain add or sub. -/
theorem new_add_new_sub_table (fuel : Nat) (lhs rhs lhs' rhs' : Node) (tl tr : Ty)
    (tok : Token)
    (hl : add_type fuel lhs = .ok lhs') (hr : add_type fuel rhs = .ok rhs')
    (htl : lhs'.ty = some tl) (htr : rhs'.ty = some tr) :
    (is_integer tl = true → is_integer tr = true →
        new_add fuel lhs rhs tok = .ok (new_binary .ND_ADD lhs' rhs' tok) ∧
        new_sub fuel lhs rhs tok = .ok (new_binary .ND_SUB lhs' rhs' tok)) ∧
    (tl.base.isSome = true → is_integer tr = true →
        new_add fuel lhs rhs tok = .ok (new_binary .ND_PTR_ADD lhs' rhs' tok) ∧
        new_sub fuel lhs rhs tok = .ok (new_binary .ND_PTR_SUB lhs' rhs' tok)) ∧
    (is_integer tl = true → tr.base.isSome = true →
        new_add fuel lhs rhs tok = .ok (new_binary .ND_PTR_ADD rhs' lhs' tok) ∧
        new_sub fuel lhs rhs tok = .error (.tok "invalid operands" tok)) ∧
    (tl.base.isSome = true → tr.base.isSome = true →
        new_add fuel lhs rhs tok = .error (.tok "invalid operands" tok) ∧
        new_sub fuel lhs rhs tok = .ok (new_binary .ND_PTR_DIFF lhs' rhs' tok)) := by
  refine ⟨fun h1 h2 => ?_, fun h1 h2 => ?_, fun h1 h2 => ?_, fun h1 h2 => ?_⟩
  · constructor <;> simp [new_add, new_sub, hl, hr, htl, htr, h1, h2]
  · have e1 := not_integer_of_base_isSome h1
    constructor <;> simp [new_add, new_sub, hl, hr, htl, htr, h1, h2, e1]
  · have e2 := not_integer_of_base_isSome h2
    have e3 := base_none_of_is_integer h1
    constructor <;> simp [new_add, new_sub, hl, hr, htl, htr, h1, h2, e2, e3]
  · have e1 := not_integer_of_base_isSome h1
    have e2 := not_integer_of_base_isSome h2
    constructor <;> simp [new_add, new_sub, hl, hr, htl, htr, h1, h2, e1, e2]

/-- Witness for C1 at the concrete operands one and two (both integer
literals): plus builds a plain add node of the annotated operands. -/
theorem new_add_new_sub_table_witness :
    new_add 2 (new_num 1 (Token.num 1)) (new_num 2 (Token.num 2)) (Token.reserved "+")
      = .ok (new_binary .ND_ADD
          ⟨.ND_NUM, none, none, none, none, none, none, none, [], "", [], 1, none, none,
           some Ty.int, Token.num 1⟩
          ⟨.ND_NUM, none, none, none, none, none, none, none, [], "", [], 2, none, none,
           some Ty.int, Token.num 2⟩
          (Token.reserved "+")) ∧
    new_sub 2 (new_num 1 (Token.num 1)) (new_num 2 (Token.num 2)) (Token.reserved "+")
      = .ok (new_binary .ND_SUB
          ⟨.ND_NUM, none, none, none, none, none, none, none, [], "", [], 1, none, none,
           some Ty.int, Token.num 1⟩
          ⟨.ND_NUM, none, none, none, none, none, none, none, [], "", [], 2, none, none,
           some Ty.int, Token.num 2⟩
          (Token.reserved "+")) :=
  (new_add_new_sub_table 2 (new_num 1 (Token.num 1)) (new_num 2 (Token.num 2))
    ⟨.ND_NUM, none, none, none, none, none, none, none, [], "", [], 1, none, none,
     some Ty.int, Token.num 1⟩
    ⟨.ND_NUM, none, none, none, none, none, none, none, [], "", [], 2, none, none,
     some Ty.int, Token.num 2⟩
    Ty.int Ty.int (Token.reserved "+") rfl rfl rfl rfl).1 rfl rfl

lemma basetype_group_env : ∀ fuel : Nat,
    (∀ st (r : Ty × PState), basetype fuel st = .ok r → same_env st r.2) ∧
    (∀ (ty : Ty) st (r : Ty × PState), basetype_ptr_loop fuel ty st = .ok r → same_env st r.2) ∧
    (∀ st (r : Ty × PState), struct_decl fuel st = .ok r → same_env st r.2) ∧
    (∀ st (r : List Member × PState), struct_members fuel st = .ok r → same_env st r.2) ∧
    (∀ st (r : Member × PState), struct_member fuel st = .ok r → same_env st r.2) := by
  intro fuel
  induction fuel with
  | zero =>
      exact ⟨fun st r h => absurd h (by simp [basetype]),
             fun ty st r h => absurd h (by simp [basetype_ptr_loop]),
             fun st r h => absurd h (by simp [struct_decl]),
             fun st r h => absurd h (by simp [struct_members]),
             fun st r h => absurd h (by simp [struct_member])⟩
  | succ fuel ih =>
      obtain ⟨ihb, ihp, ihd, ihms, ihm⟩ := ih
      refine ⟨?_, ?_, ?_, ?_, ?_⟩
      · intro st r h
        rw [basetype] at h
        split at h
        · exact absurd h (by simp)
        · split at h
          · rename_i t1 st1 hc
            exact same_env_trans (consume_same_env hc) (ihp _ _ _ h)
          · split at h
            · rename_i t1 st1 hc
              exact same_env_trans (consume_same_env hc) (ihp _ _ _ h)
            · split at h
              · exact absurd h (by simp)
              · rename_i ty2 st2 hd
                exact same_env_trans (ihd _ _ hd) (ihp _ _ _ h)
      · intro ty st r h
        rw [basetype_ptr_loop] at h
        split at h
        · rename_i t1 st1 hc
          exact same_env_trans (consume_same_env hc) (ihp _ _ _ h)
        · injection h with h'
          rw [← h']
          exact same_env_refl st
      · intro st r h
        rw [struct_decl] at h
        split at h
        · exact absurd h (by simp)
        · rename_i st1 h1
          split at h
          · exact absurd h (by simp)
          · rename_i st2 h2
            split at h
            · exact absurd h (by simp)
            · rename_i ms3 st3 h3
              injection h with h'
              rw [← h']
              exact same_env_trans (expect_same_env h1)
                (same_env_trans (expect_same_env h2) (ihms _ _ h3))
      · intro st r h
        rw [struct_members] at h
        split at h
        · rename_i t1 st1 hc
          injection h with h'
          rw [← h']
          exact consume_same_env hc
        · split at h
          · exact absurd h (by simp)
          · rename_i m1 st1 hm
            split at h
            · exact absurd h (by simp)
            · rename_i ms2 st2 hms
              injection h with h'
              rw [← h']
              exact same_env_trans (ihm _ _ hm) (ihms st1 (ms2, st2) hms)
      · intro st r h
        rw [struct_member] at h
        split at h
        · exact absurd h (by simp)
        · rename_i ty1 st1 h1
          split at h
          · exact absurd h (by simp)
          · rename_i name2 st2 h2
            split at h
            · exact absurd h (by simp)
            · rename_i ty3 st3 h3
              split at h
              · exact absurd h (by simp)
              · rename_i st4 h4
                injection h with h'
                rw [← h']
                exact same_env_trans (ihb _ _ h1)
                  (same_env_trans (expect_ident_same_env h2)
                    (same_env_trans (read_type_suffix_same_env fuel h3)
                      (expect_same_env h4)))

/-- C5: top-level disambiguation is side-effect-free lookahead: whenever
is_function returns, the resulting state is exactly the input state (the
token position is rewound and no scope, locals, globals or label state
changed); moreover the program int x semicolon parses to a single global
variable and no function, and the program int f of no parameters
returning zero parses to a single function and no global. -/
theorem is_function_rewind (fuel : Nat) (st : PState) (b : Bool) (st' : PState)
    (h : is_function fuel st = .ok (b, st')) :
    st' = st ∧
    program 20 ⟨[Token.reserved "int", Token.ident "x", Token.reserved ";"],
                [], [], [], 0⟩ =
      .ok ⟨[⟨"x", Ty.int, false, none, 0⟩], []⟩ ∧
    program 20 ⟨[Token.reserved "int", Token.ident "f", Token.reserved "(",
                 Token.reserved ")", Token.reserved "\x7b", Token.reserved "return",
                 Token.num 0, Token.reserved ";", Token.reserved "\x7d"],
                [], [], [], 0⟩ =
      .ok ⟨[], [⟨"f", [], [],
        [⟨.ND_RETURN,
          some ⟨.ND_NUM, none, none, none, none, none, none, none, [], "", [], 0, none, none,
                some Ty.int, Token.num 0⟩,
          none, none, none, none, none, none, [], "", [], 0, none, none, none,
          Token.reserved "return"⟩]⟩]⟩ := by
  refine ⟨?_, rfl, rfl⟩
  cases fuel with
  | zero => exact absurd h (by simp [is_function])
  | succ fuel =>
      rw [is_function] at h
      split at h
      · exact absurd h (by simp)
      · rename_i ty1 st1 hb
        have henv1 := (basetype_group_env fuel).1 st (ty1, st1) hb
        split at h
        · simp only [Except.ok.injEq, Prod.mk.injEq] at h
          obtain ⟨-, hst⟩ := h
          obtain ⟨e1, e2, e3, e4⟩ := henv1
          rw [← hst]
          exact PState.ext rfl e1 e2 e3 e4
        · rename_i t2 st2 hci
          split at h
          · simp only [Except.ok.injEq, Prod.mk.injEq] at h
            obtain ⟨-, hst⟩ := h
            obtain ⟨e1, e2, e3, e4⟩ :=
              same_env_trans henv1 (consume_ident_same_env hci)
            rw [← hst]
            exact PState.ext rfl e1 e2 e3 e4
          · rename_i t3 st3 hcp
            simp only [Except.ok.injEq, Prod.mk.injEq] at h
            obtain ⟨-, hst⟩ := h
            obtain ⟨e1, e2, e3, e4⟩ :=
              same_env_trans (same_env_trans henv1 (consume_ident_same_env hci))
                (consume_same_env hcp)
            rw [← hst]
            exact PState.ext rfl e1 e2 e3 e4

/-- Witness for C5 at the concrete token stream int x semicolon: the
lookahead answers false and hands back the state it was given. -/
theorem is_function_rewind_witness :
    ⟨[Token.reserved "int", Token.ident "x", Token.reserved ";"], [], [], [], 0⟩
      = (⟨[Token.reserved "int", Token.ident "x", Token.reserved ";"], [], [], [], 0⟩ : PState) ∧
    program 20 ⟨[Token.reserved "int", Token.ident "x", Token.reserved ";"],
                [], [], [], 0⟩ =
      .ok ⟨[⟨"x", Ty.int, false, none, 0⟩], []⟩ ∧
    program 20 ⟨[Token.reserved "int", Token.ident "f", Token.reserved "(",
                 Token.reserved ")", Token.reserved "\x7b", Token.reserved "return",
                 Token.num 0, Token.reserved ";", Token.reserved "\x7d"],
                [], [], [], 0⟩ =
      .ok ⟨[], [⟨"f", [], [],
        [⟨.ND_RETURN,
          some ⟨.ND_NUM, none, none, none, none, none, none, none, [], "", [], 0, none, none,
                some Ty.int, Token.num 0⟩,
          none, none, none, none, none, none, [], "", [], 0, none, none, none,
          Token.reserved "return"⟩]⟩]⟩ :=
  is_function_rewind 10
    ⟨[Token.reserved "int", Token.ident "x", Token.reserved ";"], [], [], [], 0⟩
    false
    ⟨[Token.reserved "int", Token.ident "x", Token.reserved ";"], [], [], [], 0⟩
    rfl

/-- C8 counterexample: parsing the two global declarations int a and
int b in that order yields a program whose global list names b first,
so a newly declared global comes before, not after, the previously
declared ones. -/
theorem program_globals_reverse_order :
    Except.map (fun p => p.globals.map Var.name)
      (program 20 ⟨[Token.reserved "int", Token.ident "a", Token.reserved ";",
                    Token.reserved "int", Token.ident "b", Token.reserved ";"],
                   [], [], [], 0⟩)
      = .ok ["b", "a"] ∧
    (["b", "a"] : List String) ≠ ["a", "b"] :=
  ⟨rfl, by decide⟩

/-- C8 amended: declaring a global variable prepends it to the global
chain, so after a complete parse the program global list presents the
globals in reverse declaration order, each newly declared global before
all previously declared ones. -/
theorem global_var_prepends (fuel : Nat) (st st' : PState)
    (h : global_var (fuel+1) st = .ok st') :
    (∃ name ty, st'.globals = Var.mk name ty false none 0 :: st.globals) ∧
    Except.map (fun p => p.globals.map Var.name)
      (program 20 ⟨[Token.reserved "int", Token.ident "a", Token.reserved ";",
                    Token.reserved "int", Token.ident "b", Token.reserved ";"],
                   [], [], [], 0⟩)
      = .ok ["b", "a"] := by
  refine ⟨?_, rfl⟩
  rw [global_var] at h
  split at h
  · exact absurd h (by simp)
  · rename_i ty1 st1 h1
    split at h
    · exact absurd h (by simp)
    · rename_i name2 st2 h2
      split at h
      · exact absurd h (by simp)
      · rename_i ty3 st3 h3
        split at h
        · exact absurd h (by simp)
        · rename_i st4 h4
          injection h with h'
          obtain ⟨-, -, e3, -⟩ :=
            same_env_trans ((basetype_group_env fuel).1 st (ty1, st1) h1)
              (same_env_trans (expect_ident_same_env h2)
                (same_env_trans (read_type_suffix_same_env fuel h3)
                  (expect_same_env h4)))
          refine ⟨name2, ty3, ?_⟩
          rw [← h']
          simp [new_gvar, new_var, e3]

/-- Witness for C8 at the concrete declaration int a semicolon: the
declared global is prepended to the global chain. -/
theorem global_var_prepends_witness :
    (∃ name ty,
      (⟨[], [⟨"a", Ty.int, false, none, 0⟩], [], [⟨"a", Ty.int, false, none, 0⟩], 0⟩ : PState).globals
        = Var.mk name ty false none 0 :: ([] : List Var)) ∧
    Except.map (fun p => p.globals.map Var.name)
      (program 20 ⟨[Token.reserved "int", Token.ident "a", Token.reserved ";",
                    Token.reserved "int", Token.ident "b", Token.reserved ";"],
                   [], [], [], 0⟩)
      = .ok ["b", "a"] :=
  global_var_prepends 10
    ⟨[Token.reserved "int", Token.ident "a", Token.reserved ";"], [], [], [], 0⟩
    ⟨[], [⟨"a", Ty.int, false, none, 0⟩], [], [⟨"a", Ty.int, false, none, 0⟩], 0⟩
    rfl

/-- C9 counterexample: an aggregate whose two members are both named a
is constructed successfully by struct_decl, with no duplicate-name
declaration error; both members are kept. -/
theorem struct_decl_accepts_duplicate_member :
    struct_decl 20 ⟨[Token.reserved "struct", Token.reserved "\x7b",
                     Token.reserved "int", Token.ident "a", Token.reserved ";",
                     Token.reserved "int", Token.ident "a", Token.reserved ";",
                     Token.reserved "\x7d"], [], [], [], 0⟩
      = .ok (Ty.strct [⟨"a", Ty.int, 0⟩, ⟨"a", Ty.int, 8⟩] 16, ⟨[], [], [], [], 0⟩) ∧
    (Ty.strct [⟨"a", Ty.int, 0⟩, ⟨"a", Ty.int, 8⟩] 16).members.map MemberT.name
      = ["a", "a"] :=
  ⟨rfl, rfl⟩

/-- C9 amended: aggregate construction performs no member-name
uniqueness check: a member list with a duplicated name constructs
successfully, offsets are still assigned by running total, and member
lookup resolves a duplicated name to the first member carrying it. -/
theorem struct_decl_duplicate_first_wins :
    struct_decl 20 ⟨[Token.reserved "struct", Token.reserved "\x7b",
                     Token.reserved "int", Token.ident "a", Token.reserved ";",
                     Token.reserved "int", Token.ident "a", Token.reserved ";",
                     Token.reserved "\x7d"], [], [], [], 0⟩
      = .ok (Ty.strct [⟨"a", Ty.int, 0⟩, ⟨"a", Ty.int, 8⟩] 16, ⟨[], [], [], [], 0⟩) ∧
    find_member (Ty.strct [⟨"a", Ty.int, 0⟩, ⟨"a", Ty.int, 8⟩] 16) "a"
      = some ⟨"a", Ty.int, 0⟩ :=
  ⟨rfl, rfl⟩

/-- C7: a sizeof expression is folded at parse time: when primary sees
the sizeof keyword it parses the operand, runs the type-annotation pass
on it, and returns a numeric literal node equal to the resolved operand
type size; no runtime sizeof node exists in the AST. -/
theorem sizeof_constant_folded (fuel : Nat) (st : PState) (rest : List Token)
    (n : Node) (st' : PState)
    (htok : st.tokens = Token.reserved "sizeof" :: rest)
    (h : primary (fuel+1) st = .ok (n, st')) :
    ∃ opnd st1 opnd' t,
      unary fuel ({ st with tokens := rest } : PState) = .ok (opnd, st1) ∧
      add_type fuel opnd = .ok opnd' ∧
      opnd'.ty = some t ∧
      n = new_num t.size (Token.reserved "sizeof") ∧ st' = st1 := by
  rw [primary] at h
  have hcp : consume "(" st = none := by simp [consume, htok]
  have hcs : consume "sizeof" st
      = some (Token.reserved "sizeof", { st with tokens := rest }) := by
    simp [consume, htok]
  simp only [hcp, hcs] at h
  split at h
  · exact absurd h (by simp)
  · rename_i opnd st1 hu
    split at h
    · exact absurd h (by simp)
    · rename_i opnd' ha
      split at h
      · rename_i t hty
        injection h with h'
        rw [Prod.mk.injEq] at h'
        obtain ⟨hn, hst⟩ := h'
        exact ⟨opnd, st1, opnd', t, hu, ha, hty, hn.symm, hst.symm⟩
      · exact absurd h (by simp)

/-- Witness for C7 at the concrete expression sizeof 7: the numeric
literal operand has the word integer type of size eight, and the whole
expression folds to the literal eight with no further node. -/
theorem sizeof_constant_folded_witness :
    ∃ opnd st1 opnd' t,
      unary 4 ({ (⟨[Token.reserved "sizeof", Token.num 7], [], [], [], 0⟩ : PState)
                   with tokens := [Token.num 7] } : PState) = .ok (opnd, st1) ∧
      add_type 4 opnd = .ok opnd' ∧
      opnd'.ty = some t ∧
      new_num 8 (Token.reserved "sizeof") = new_num t.size (Token.reserved "sizeof") ∧
      (⟨[], [], [], [], 0⟩ : PState) = st1 :=
  sizeof_constant_folded 4
    ⟨[Token.reserved "sizeof", Token.num 7], [], [], [], 0⟩
    [Token.num 7]
    (new_num 8 (Token.reserved "sizeof"))
    ⟨[], [], [], [], 0⟩
    rfl rfl

/-- C6: a parenthesized brace-block statement expression that parses
successfully always has an expression statement as its final statement,
and the node it yields carries the body statements with that final
expression statement replaced in place by its inner expression, so the
value-producing last body node is the inner expression itself; in
particular the block one, two, three yields a body ending in the typed
literal three, and a block whose final statement is an if fails with the
error at that statement. -/
theorem stmt_expr_splices_last (fuel : Nat) (tok : Token) (st : PState)
    (n : Node) (st' : PState)
    (h : stmt_expr (fuel+1) tok st = .ok (n, st')) :
    (∃ first rest st1 st2 l,
      stmt fuel st = .ok (first, st1) ∧
      stmt_expr_loop fuel st1 = .ok (rest, st2) ∧
      expect ")" st2 = .ok st' ∧
      ((first :: rest).getLast (by simp)).kind = .ND_EXPR_STMT ∧
      ((first :: rest).getLast (by simp)).lhs = some l ∧
      n = mk_stmt_expr ((first :: rest).dropLast ++ [l]) tok) ∧
    Except.map (fun r => r.1.body.map (fun b => (b.kind, b.val, b.ty)))
      (primary 30 ⟨[Token.reserved "(", Token.reserved "\x7b", Token.num 1, Token.reserved ";",
                    Token.num 2, Token.reserved ";", Token.num 3, Token.reserved ";",
                    Token.reserved "\x7d", Token.reserved ")"], [], [], [], 0⟩)
      = .ok [(.ND_EXPR_STMT, 0, none), (.ND_EXPR_STMT, 0, none),
             (.ND_NUM, 3, some Ty.int)] ∧
    primary 30 ⟨[Token.reserved "(", Token.reserved "\x7b",
                 Token.reserved "if", Token.reserved "(", Token.num 1, Token.reserved ")",
                 Token.num 2, Token.reserved ";", Token.reserved "\x7d", Token.reserved ")"],
                [], [], [], 0⟩
      = .error (.tok "stmt expr returning void is not supported" (Token.reserved "if")) := by
  refine ⟨?_, rfl, rfl⟩
  rw [stmt_expr] at h
  split at h
  · exact absurd h (by simp)
  · rename_i first st1 h1
    split at h
    · exact absurd h (by simp)
    · rename_i rest st2 h2
      split at h
      · exact absurd h (by simp)
      · rename_i st3 h3
        simp only [] at h
        split at h
        · rename_i l hk hl
          injection h with h'
          rw [Prod.mk.injEq] at h'
          obtain ⟨hn, hst⟩ := h'
          exact ⟨first, rest, st1, st2, l, h1, h2, hst ▸ h3, hk, hl, hn.symm⟩
        all_goals exact absurd h (by simp)

/-- Witness for C6 at the concrete block one, two, three: the three
statements parse, the final one is an expression statement wrapping the
literal three, and the resulting node body ends in that literal. -/
theorem stmt_expr_splices_last_witness :
    (∃ first rest st1 st2 l,
      stmt 28 (⟨[Token.num 1, Token.reserved ";", Token.num 2, Token.reserved ";",
                 Token.num 3, Token.reserved ";", Token.reserved "\x7d", Token.reserved ")"],
                [], [], [], 0⟩ : PState) = .ok (first, st1) ∧
      stmt_expr_loop 28 st1 = .ok (rest, st2) ∧
      expect ")" st2 = .ok (⟨[], [], [], [], 0⟩ : PState) ∧
      ((first :: rest).getLast (by simp)).kind = .ND_EXPR_STMT ∧
      ((first :: rest).getLast (by simp)).lhs = some l ∧
      mk_stmt_expr
          [⟨.ND_EXPR_STMT,
             some ⟨.ND_NUM, none, none, none, none, none, none, none, [], "", [], 1, none, none,
                   some Ty.int, Token.num 1⟩,
             none, none, none, none, none, none, [], "", [], 0, none, none, none, Token.num 1⟩,
           ⟨.ND_EXPR_STMT,
             some ⟨.ND_NUM, none, none, none, none, none, none, none, [], "", [], 2, none, none,
                   some Ty.int, Token.num 2⟩,
             none, none, none, none, none, none, [], "", [], 0, none, none, none, Token.num 2⟩,
           ⟨.ND_NUM, none, none, none, none, none, none, none, [], "", [], 3, none, none,
             some Ty.int, Token.num 3⟩]
          (Token.reserved "(")
        = mk_stmt_expr ((first :: rest).dropLast ++ [l]) (Token.reserved "(")) ∧
    Except.map (fun r => r.1.body.map (fun b => (b.kind, b.val, b.ty)))
      (primary 30 ⟨[Token.reserved "(", Token.reserved "\x7b", Token.num 1, Token.reserved ";",
                    Token.num 2, Token.reserved ";", Token.num 3, Token.reserved ";",
                    Token.reserved "\x7d", Token.reserved ")"], [], [], [], 0⟩)
      = .ok [(.ND_EXPR_STMT, 0, none), (.ND_EXPR_STMT, 0, none),
             (.ND_NUM, 3, some Ty.int)] ∧
    primary 30 ⟨[Token.reserved "(", Token.reserved "\x7b",
                 Token.reserved "if", Token.reserved "(", Token.num 1, Token.reserved ")",
                 Token.num 2, Token.reserved ";", Token.reserved "\x7d", Token.reserved ")"],
                [], [], [], 0⟩
      = .error (.tok "stmt expr returning void is not supported" (Token.reserved "if")) :=
  stmt_expr_splices_last 28 (Token.reserved "(")
    ⟨[Token.num 1, Token.reserved ";", Token.num 2, Token.reserved ";",
      Token.num 3, Token.reserved ";", Token.reserved "\x7d", Token.reserved ")"],
     [], [], [], 0⟩
    (mk_stmt_expr
      [⟨.ND_EXPR_STMT,
         some ⟨.ND_NUM, none, none, none, none, none, none, none, [], "", [], 1, none, none,
               some Ty.int, Token.num 1⟩,
         none, none, none, none, none, none, [], "", [], 0, none, none, none, Token.num 1⟩,
       ⟨.ND_EXPR_STMT,
         some ⟨.ND_NUM, none, none, none, none, none, none, none, [], "", [], 2, none, none,
               some Ty.int, Token.num 2⟩,
         none, none, none, none, none, none, [], "", [], 0, none, none, none, Token.num 2⟩,
       ⟨.ND_NUM, none, none, none, none, none, none, none, [], "", [], 3, none, none,
         some Ty.int, Token.num 3⟩]
      (Token.reserved "("))
    ⟨[], [], [], [], 0⟩
    rfl

/-- C10: a successful local declaration parses base type, name and array
suffixes, then declares the variable: the new variable is local, is
pushed onto the locals list, and resolves by name in the resulting
scope; if a bare semicolon follows, the statement is the null no-op node
and the variable remains declared and resolvable in the final state; if
an initializer follows, the statement is an expression statement
wrapping an assignment of the initializer expression to the new
variable. -/
theorem declaration_null_or_assign (fuel : Nat) (st : PState) (n : Node) (st' : PState)
    (h : declaration (fuel+1) st = .ok (n, st')) :
    ∃ ty st1 name st2 ty2 st3,
      basetype fuel st = .ok (ty, st1) ∧
      expect_ident st1 = .ok (name, st2) ∧
      read_type_suffix fuel ty st2 = .ok (ty2, st3) ∧
      (new_lvar name ty2 st3).1.is_local = true ∧
      (new_lvar name ty2 st3).2.locals = (new_lvar name ty2 st3).1 :: st3.locals ∧
      find_var (Token.ident name) (new_lvar name ty2 st3).2.scope
        = some (new_lvar name ty2 st3).1 ∧
      ((∃ t st5, consume ";" (new_lvar name ty2 st3).2 = some (t, st5) ∧
          n = new_node .ND_NULL (cur_tok st) ∧ st' = st5 ∧
          st'.scope = (new_lvar name ty2 st3).2.scope ∧
          st'.locals = (new_lvar name ty2 st3).2.locals ∧
          find_var (Token.ident name) st'.scope = some (new_lvar name ty2 st3).1) ∨
       (consume ";" (new_lvar name ty2 st3).2 = none ∧
        ∃ st5 rhs st6 st7,
          expect "=" (new_lvar name ty2 st3).2 = .ok st5 ∧
          expr fuel st5 = .ok (rhs, st6) ∧
          expect ";" st6 = .ok st7 ∧ st' = st7 ∧
          n = new_unary .ND_EXPR_STMT
                (new_binary .ND_ASSIGN
                  (new_var_node (new_lvar name ty2 st3).1 (cur_tok st)) rhs (cur_tok st))
                (cur_tok st))) := by
  rw [declaration] at h
  split at h
  · exact absurd h (by simp)
  · rename_i ty1 st1 h1
    split at h
    · exact absurd h (by simp)
    · rename_i name2 st2 h2
      split at h
      · exact absurd h (by simp)
      · rename_i ty3 st3 h3
        refine ⟨ty1, st1, name2, st2, ty3, st3, h1, h2, h3, rfl,
                by simp [new_lvar, new_var],
                by simp [new_lvar, new_var, find_var, tok_str], ?_⟩
        simp only [] at h
        split at h
        · rename_i t4 st4 hc
          injection h with h'
          rw [Prod.mk.injEq] at h'
          obtain ⟨hn, hst⟩ := h'
          obtain ⟨e1, e2, -, -⟩ := consume_same_env hc
          refine Or.inl ⟨t4, st4, hc, hn.symm, hst.symm, ?_, ?_, ?_⟩
          · rw [← hst]; exact e1
          · rw [← hst]; exact e2
          · rw [← hst, e1]
            simp [new_lvar, new_var, find_var, tok_str]
        · rename_i hc
          split at h
          · exact absurd h (by simp)
          · rename_i st5 h5
            split at h
            · exact absurd h (by simp)
            · rename_i rhs6 st6 h6
              split at h
              · exact absurd h (by simp)
              · rename_i st7 h7
                injection h with h'
                rw [Prod.mk.injEq] at h'
                obtain ⟨hn, hst⟩ := h'
                exact Or.inr ⟨hc, st5, rhs6, st6, st7, h5, h6, h7, hst.symm, hn.symm⟩

/-- Witness for C10 at the concrete declaration int x semicolon: the
variable x is declared local with type int, lands on the locals list,
resolves in scope, and the statement node is the null no-op. -/
theorem declaration_null_or_assign_witness :
    ∃ ty st1 name st2 ty2 st3,
      basetype 3 (⟨[Token.reserved "int", Token.ident "x", Token.reserved ";"],
                   [], [], [], 0⟩ : PState) = .ok (ty, st1) ∧
      expect_ident st1 = .ok (name, st2) ∧
      read_type_suffix 3 ty st2 = .ok (ty2, st3) ∧
      (new_lvar name ty2 st3).1.is_local = true ∧
      (new_lvar name ty2 st3).2.locals = (new_lvar name ty2 st3).1 :: st3.locals ∧
      find_var (Token.ident name) (new_lvar name ty2 st3).2.scope
        = some (new_lvar name ty2 st3).1 ∧
      ((∃ t st5, consume ";" (new_lvar name ty2 st3).2 = some (t, st5) ∧
          new_node .ND_NULL (Token.reserved "int")
            = new_node .ND_NULL
                (cur_tok (⟨[Token.reserved "int", Token.ident "x", Token.reserved ";"],
                           [], [], [], 0⟩ : PState)) ∧
          (⟨[], [⟨"x", Ty.int, true, none, 0⟩], [⟨"x", Ty.int, true, none, 0⟩], [], 0⟩ : PState)
            = st5 ∧
          (⟨[], [⟨"x", Ty.int, true, none, 0⟩], [⟨"x", Ty.int, true, none, 0⟩], [], 0⟩ : PState).scope
            = (new_lvar name ty2 st3).2.scope ∧
          (⟨[], [⟨"x", Ty.int, true, none, 0⟩], [⟨"x", Ty.int, true, none, 0⟩], [], 0⟩ : PState).locals
            = (new_lvar name ty2 st3).2.locals ∧
          find_var (Token.ident name)
              (⟨[], [⟨"x", Ty.int, true, none, 0⟩], [⟨"x", Ty.int, true, none, 0⟩], [], 0⟩ : PState).scope
            = some (new_lvar name ty2 st3).1) ∨
       (consume ";" (new_lvar name ty2 st3).2 = none ∧
        ∃ st5 rhs st6 st7,
          expect "=" (new_lvar name ty2 st3).2 = .ok st5 ∧
          expr 3 st5 = .ok (rhs, st6) ∧
          expect ";" st6 = .ok st7 ∧
          (⟨[], [⟨"x", Ty.int, true, none, 0⟩], [⟨"x", Ty.int, true, none, 0⟩], [], 0⟩ : PState)
            = st7 ∧
          new_node .ND_NULL (Token.reserved "int")
            = new_unary .ND_EXPR_STMT
                (new_binary .ND_ASSIGN
                  (new_var_node (new_lvar name ty2 st3).1
                    (cur_tok (⟨[Token.reserved "int", Token.ident "x", Token.reserved ";"],
                               [], [], [], 0⟩ : PState)))
                  rhs
                  (cur_tok (⟨[Token.reserved "int", Token.ident "x", Token.reserved ";"],
                             [], [], [], 0⟩ : PState)))
                (cur_tok (⟨[Token.reserved "int", Token.ident "x", Token.reserved ";"],
                           [], [], [], 0⟩ : PState)))) :=
  declaration_null_or_assign 3
    ⟨[Token.reserved "int", Token.ident "x", Token.reserved ";"], [], [], [], 0⟩
    (new_node .ND_NULL (Token.reserved "int"))
    ⟨[], [⟨"x", Ty.int, true, none, 0⟩], [⟨"x", Ty.int, true, none, 0⟩], [], 0⟩
    rfl
